import Mathlib

/-!
Verification development for the `ad` text editor.

The definitions below are a shallow embedding of the Rust sources:
  * `src/buffer/internal.rs` — the gap buffer and its line metadata,
  * `src/buffer/edit.rs`     — the edit log,
  * `src/buffer/mod.rs`      — the `Buffer` type composing the two,
  * `src/exec/mod.rs`        — the sam edit-language executor,
  * `src/editor/mod.rs`      — 9P-message handling for `addr`/`xaddr` writes,
  * `src/ninep/server.rs`    — the 9P walk handler,
  * `src/fsys/buffer.rs`     — buffer-file qid arithmetic,
  * `src/config.rs`          — config parsing.

Machine integers (`usize`/`u64`) are modelled as `Nat`; a Rust `debug`
subtraction underflow, out-of-bounds index or failed `assert!` is modelled by
returning `none`, so every fallible operation lives in `Option`.  Byte strings
(`&str`, `Vec<u8>`, `Box<[u8]>`) are modelled as `List Nat`.  Definitions whose
implementation is not present in this source snapshot (only their callers are)
carry a doc comment starting `Modelled from the spec:`.
-/

namespace Ad

/-- Subtraction of `usize` values: `none` models the debug-build underflow panic. -/
def csub (a b : Nat) : Option Nat := if b ≤ a then some (a - b) else none

/-- Checked list indexing: `none` models the Rust index-out-of-bounds panic. -/
def idx? {α : Type} (l : List α) (i : Nat) : Option α := l.get? i

/-- Checked in-place update (`l[i] = a` in Rust panics when out of bounds). -/
def setIdx? {α : Type} (l : List α) (i : Nat) (a : α) : Option (List α) :=
  if i < l.length then some (l.set i a) else none

/-- Checked `Vec::insert` (panics when the index exceeds the length). -/
def insertAt? {α : Type} (l : List α) (i : Nat) (a : α) : Option (List α) :=
  if i ≤ l.length then some (l.insertIdx i a) else none

/-- Checked slice `&data[lo..hi]` (panics when `lo > hi` or `hi > len`). -/
def subrange? {α : Type} (l : List α) (lo hi : Nat) : Option (List α) :=
  if lo ≤ hi ∧ hi ≤ l.length then some ((l.drop lo).take (hi - lo)) else none

/-- Checked `data.copy_within(srcLo..srcHi, dest)`. -/
def copyWithin? (data : List Nat) (srcLo srcHi dest : Nat) : Option (List Nat) :=
  if srcLo ≤ srcHi ∧ srcHi ≤ data.length ∧ dest + (srcHi - srcLo) ≤ data.length then
    some (data.take dest ++ (data.drop srcLo).take (srcHi - srcLo)
          ++ data.drop (dest + (srcHi - srcLo)))
  else none

/-- Checked write of `bytes` starting at `start` (as `copy_from_slice` / `encode_utf8`). -/
def writeRange? (data : List Nat) (start : Nat) (bytes : List Nat) : Option (List Nat) :=
  if start + bytes.length ≤ data.length then
    some (data.take start ++ bytes ++ data.drop (start + bytes.length))
  else none

/-- Bytes of an ASCII string literal (equals its UTF-8 encoding for ASCII text). -/
def ascii (s : String) : List Nat := s.toList.map Char.toNat

/-! ## Gap buffer — `src/buffer/internal.rs` -/

def MIN_GAP : Nat := 64
def MAX_GAP : Nat := 1024 * 8

/-- `clamp_gap_size`: 5% of the buffer length bounded by `min_gap` and `MAX_GAP`. -/
def clamp_gap_size (len min_gap : Nat) : Nat := min (max (len / 20) min_gap) MAX_GAP

/-- `is_char_boundary`: `(b as i8) >= -0x40`, i.e. `b < 128 || b >= 192`. -/
def is_char_boundary (b : Nat) : Bool := b < 128 || 192 ≤ b

/-- `s.chars().count()` for a UTF-8 byte string: one char per boundary byte. -/
def countBoundaries (s : List Nat) : Nat := (s.filter is_char_boundary).length

/-- Rust `usize::next_power_of_two` (0 maps to 1). -/
def nextPowerOfTwo (n : Nat) : Nat :=
  (List.range (n + 1)).foldl (fun acc k => if 2 ^ k < n then 2 ^ (k + 1) else acc) 1

/-- Split a UTF-8 byte string into its character runs (auxiliary, fuelled). -/
def utf8RunsAux : Nat → List Nat → List (List Nat)
  | 0, _ => []
  | _, [] => []
  | fuel + 1, b :: rest =>
    let c := rest.takeWhile (fun x => !is_char_boundary x)
    let r := rest.dropWhile (fun x => !is_char_boundary x)
    (b :: c) :: utf8RunsAux fuel r

/-- Split a UTF-8 byte string into its character runs (`s.chars()`). -/
def utf8Runs (l : List Nat) : List (List Nat) := utf8RunsAux l.length l

structure LineStat where
  offset : Nat
  n_chars : Nat
  n_bytes : Nat
deriving Repr, DecidableEq, Inhabited

structure LineStats where
  lines : List LineStat
  n_chars : Nat
  current_line : Nat
deriving Repr, DecidableEq, Inhabited

structure GapBuffer where
  data : List Nat
  cap : Nat
  gap_start : Nat
  gap_end : Nat
  next_gap : Nat
  line_stats : LineStats
deriving Repr, DecidableEq, Inhabited

namespace GapBuffer

/-- Number of bytes in the gap. -/
def gap (gb : GapBuffer) : Nat := gb.gap_end - gb.gap_start

/-- `len`: the active (visible) length, `cap - gap`. -/
def len (gb : GapBuffer) : Nat := gb.cap - gb.gap

/-- `is_empty`: the visible contents are empty. -/
def is_empty (gb : GapBuffer) : Bool := gb.cap == gb.gap

/-- `bytes`: the visible bytes, skipping the gap. -/
def bytes (gb : GapBuffer) : List Nat :=
  gb.data.take gb.gap_start ++ gb.data.drop gb.gap_end

/-- `to_string` (returned as the byte list of the resulting `String`). -/
def toString (gb : GapBuffer) : List Nat :=
  if gb.is_empty then [] else gb.bytes

def len_lines (gb : GapBuffer) : Nat := gb.line_stats.lines.length

def len_chars (gb : GapBuffer) : Nat := gb.line_stats.n_chars

end GapBuffer

/-- `LineStats::from(&str)`: one fold step per character of the source string. -/
def lineStatsFromStr (s : List Nat) : LineStats :=
  let step := fun (st : List LineStat × LineStat × Nat) (run : List Nat) =>
    let (lines, ls, offset) := st
    let ls : LineStat :=
      { ls with n_bytes := ls.n_bytes + run.length, n_chars := ls.n_chars + 1 }
    let offset := offset + 1
    if run = [10] then
      (lines ++ [ls], { offset := offset, n_chars := 0, n_bytes := 0 }, offset)
    else (lines, ls, offset)
  let (lines, ls, offset) :=
    (utf8Runs s).foldl step ([], { offset := 0, n_chars := 0, n_bytes := 0 }, 0)
  { lines := if ls.n_chars > 0 then lines ++ [ls] else lines
    n_chars := offset
    current_line := 0 }

namespace GapBuffer

/-- `byte_to_line` (panic when past the final line). -/
def byteToLineAux (byte_idx : Nat) : List LineStat → Nat → Nat → Option Nat
  | [], _, _ => none
  | ls :: rest, i, n =>
    let n := n + ls.n_bytes
    if byte_idx ≤ n then some i else byteToLineAux byte_idx rest (i + 1) n

def byte_to_line (gb : GapBuffer) (byte_idx : Nat) : Option Nat :=
  byteToLineAux byte_idx gb.line_stats.lines 0 0

/-- `move_gap_to`: relocate the gap to visible byte index `byte_idx`,
adjusting straddled line offsets and recomputing `current_line`. -/
def move_gap_to (gb : GapBuffer) (byte_idx : Nat) : Option GapBuffer := do
  if byte_idx > gb.len then none
  else
    let gapn := gb.gap
    if byte_idx = gb.gap_start then
      return gb
    else if byte_idx < gb.gap_start then
      let lines := gb.line_stats.lines.map fun ls =>
        if byte_idx ≤ ls.offset ∧ ls.offset ≤ gb.gap_start then
          { ls with offset := ls.offset + gapn } else ls
      let cl ← gb.byte_to_line byte_idx
      let data ← copyWithin? gb.data byte_idx gb.gap_start (byte_idx + gapn)
      return { gb with
        data
        gap_end := byte_idx + gapn
        gap_start := byte_idx
        line_stats := { gb.line_stats with lines := lines, current_line := cl } }
    else
      let lines := gb.line_stats.lines.map fun ls =>
        if gb.gap_end ≤ ls.offset ∧ ls.offset ≤ byte_idx + gapn then
          { ls with offset := ls.offset - gapn } else ls
      let cl ← gb.byte_to_line byte_idx
      let data ← copyWithin? gb.data gb.gap_end (byte_idx + gapn) gb.gap_start
      return { gb with
        data
        gap_end := byte_idx + gapn
        gap_start := byte_idx
        line_stats := { gb.line_stats with lines := lines, current_line := cl } }

/-- `LineStat::bytes`: the (pre-gap, post-gap) byte slices of a line. -/
def lineBytes? (ls : LineStat) (gb : GapBuffer) : Option (List Nat × List Nat) := do
  let e := ls.offset + ls.n_bytes
  if e ≤ gb.gap_start ∨ gb.gap_end ≤ ls.offset ∨ gb.gap_start ≤ ls.offset then
    let b1 ← subrange? gb.data ls.offset e
    return (b1, [])
  else
    let e := e + (gb.gap_end - gb.gap_start)
    let b1 ← subrange? gb.data ls.offset gb.gap_start
    let b2 ← subrange? gb.data gb.gap_end e
    return (b1, b2)

/-- Inner byte scan of `char_to_byte`: `some (some r, _)` models the early
return, `some (none, count)` models falling out of the loop. -/
def ctbScan (gb : GapBuffer) (ls : LineStat) :
    List Nat → Nat → Nat → Option (Option Nat × Nat)
  | [], _, count => some (none, count)
  | b :: rest, i, count =>
    if count = 0 then
      match (if gb.gap_start < ls.offset then csub ls.offset gb.gap_end
             else some ls.offset) with
      | none => none
      | some off => some (some (off + i), count)
    else
      ctbScan gb ls rest (i + 1) (if is_char_boundary b then count - 1 else count)

/-- Outer line loop of `char_to_byte`. -/
def ctbLines (gb : GapBuffer) (char_idx : Nat) : List LineStat → Nat → Option Nat
  | [], _ => none
  | ls :: rest, n =>
    let nb := n + ls.n_chars
    if char_idx > nb then ctbLines gb char_idx rest nb
    else do
      let count ← csub char_idx n
      let (b1, b2) ← lineBytes? ls gb
      match ← ctbScan gb ls (b1 ++ b2) 0 count with
      | (some r, _) => return r
      | (none, count) =>
        if count = 0 then return gb.len else ctbLines gb char_idx rest n

/-- `char_to_byte`: translate a character index to a visible byte index. -/
def char_to_byte (gb : GapBuffer) (char_idx : Nat) : Option Nat :=
  ctbLines gb char_idx gb.line_stats.lines 0

/-- `grow_gap`: reallocate the backing store with a larger gap. -/
def grow_gap (gb : GapBuffer) (n : Nat) : Option GapBuffer := do
  let ng := if n ≥ gb.next_gap then clamp_gap_size (gb.len + n) (nextPowerOfTwo n)
            else gb.next_gap
  let gap_increase ← csub (ng + n) gb.gap
  let cap := gb.cap + ng + n
  let pre ← subrange? gb.data 0 gb.gap_start
  let post ← subrange? gb.data gb.gap_end gb.data.length
  let buf := pre ++ List.replicate (ng + n) 0 ++ post
  let lines := gb.line_stats.lines.map fun ls =>
    if ls.offset > gb.gap_start then { ls with offset := ls.offset + gap_increase } else ls
  let ng2 := clamp_gap_size gb.len (ng * 2)
  return { gb with
    data := buf
    cap
    gap_end := gb.gap_end + gap_increase
    next_gap := ng2
    line_stats := { gb.line_stats with lines := lines } }

end GapBuffer

namespace LineStats

/-- `LineStats::insert_newline`: split the current line record at `idx`. -/
def insert_newline (st : LineStats) (idx : Nat) (data : List Nat) : Option LineStats := do
  let ls ← idx? st.lines st.current_line
  let new_n_bytes ← (← csub idx ls.offset).succ |> some
  let seg ← subrange? data ls.offset (idx + 1)
  let new_n_chars := countBoundaries seg
  let lines ← setIdx? st.lines st.current_line
    { ls with n_bytes := new_n_bytes, n_chars := new_n_chars }
  let cl := st.current_line + 1
  let nc ← csub ls.n_chars new_n_chars
  let nb ← csub ls.n_bytes new_n_bytes
  let lines ← insertAt? lines cl { offset := idx + 1, n_chars := nc, n_bytes := nb }
  return { st with lines := lines, current_line := cl }

/-- `LineStats::remove_newline`: absorb the following line into the current one. -/
def remove_newline (st : LineStats) : Option LineStats := do
  if st.lines.length = 0 then none
  else if st.current_line = st.lines.length - 1 then return st
  else
    let removed ← idx? st.lines (st.current_line + 1)
    let lines := st.lines.eraseIdx (st.current_line + 1)
    let ls ← idx? lines st.current_line
    let lines ← setIdx? lines st.current_line
      { ls with n_bytes := ls.n_bytes + removed.n_bytes
                n_chars := ls.n_chars + removed.n_chars }
    return { st with lines := lines }

end LineStats

namespace GapBuffer

/-- `insert_char` (the character is given as its UTF-8 byte run). -/
def insert_char (gb : GapBuffer) (ch : List Nat) (char_idx : Nat) : Option GapBuffer := do
  let n := ch.length
  let gb ← if n ≥ gb.gap then gb.grow_gap n else pure gb
  let idx ← gb.char_to_byte char_idx
  let gb ← gb.move_gap_to idx
  let data ← writeRange? gb.data gb.gap_start ch
  let gb := { gb with
    data
    gap_start := gb.gap_start + n
    line_stats := { gb.line_stats with n_chars := gb.line_stats.n_chars + 1 } }
  let ls ← idx? gb.line_stats.lines gb.line_stats.current_line
  let ls := { ls with
    n_chars := ls.n_chars + 1
    n_bytes := ls.n_bytes + n
    offset := if idx < ls.offset then idx else ls.offset }
  let lines ← setIdx? gb.line_stats.lines gb.line_stats.current_line ls
  let gb := { gb with line_stats := { gb.line_stats with lines := lines } }
  if ch = [10] then
    let st ← gb.line_stats.insert_newline idx gb.data
    return { gb with line_stats := st }
  else
    return gb

/-- `insert_str`.  NOTE (as in the source): the total `n_chars` is increased by
`s.len()` — the *byte* length — while the line record gains `s.chars().count()`. -/
def insert_str (gb : GapBuffer) (s : List Nat) (char_idx : Nat) : Option GapBuffer := do
  let n := s.length
  let gb ← if n ≥ gb.gap then gb.grow_gap n else pure gb
  let idx ← gb.char_to_byte char_idx
  let gb ← gb.move_gap_to idx
  let data ← writeRange? gb.data gb.gap_start s
  let gb := { gb with
    data
    gap_start := gb.gap_start + n
    line_stats := { gb.line_stats with n_chars := gb.line_stats.n_chars + n } }
  let ls ← idx? gb.line_stats.lines gb.line_stats.current_line
  let ls := { ls with
    n_chars := ls.n_chars + countBoundaries s
    n_bytes := ls.n_bytes + n
    offset := if idx < ls.offset then idx else ls.offset }
  let lines ← setIdx? gb.line_stats.lines gb.line_stats.current_line ls
  let gb := { gb with line_stats := { gb.line_stats with lines := lines } }
  (s.enum).foldlM
    (fun gb (p : Nat × Nat) =>
      if p.2 = 10 then do
        let st ← gb.line_stats.insert_newline (idx + p.1) gb.data
        pure { gb with line_stats := st }
      else pure gb)
    gb

/-- `remove_char`. -/
def remove_char (gb : GapBuffer) (char_idx : Nat) : Option GapBuffer := do
  let idx ← gb.char_to_byte char_idx
  let rest := gb.data.drop idx
  let k := (rest.takeWhile (fun b => !is_char_boundary b)).length
  if k = rest.length then none
  else
    let n := 1 + k
    let gb ←
      if idx = gb.gap_start then pure { gb with gap_end := gb.gap_end + n }
      else do
        let gb ← gb.move_gap_to idx
        pure { gb with gap_end := gb.gap_end + n }
    let tot ← csub gb.line_stats.n_chars 1
    let gb := { gb with line_stats := { gb.line_stats with n_chars := tot } }
    let ls ← idx? gb.line_stats.lines gb.line_stats.current_line
    let lc ← csub ls.n_chars 1
    let lb ← csub ls.n_bytes n
    let lines ← setIdx? gb.line_stats.lines gb.line_stats.current_line
      { ls with n_chars := lc, n_bytes := lb }
    let gb := { gb with line_stats := { gb.line_stats with lines := lines } }
    let b0 ← idx? gb.data idx
    if b0 = 10 then do
      let st ← gb.line_stats.remove_newline
      return { gb with line_stats := st }
    else return gb

/-- `remove_range` (carries the source's FIXME: the accounting breaks when the
range spans multiple lines). -/
def remove_range (gb : GapBuffer) (char_from char_to : Nat) : Option GapBuffer := do
  if char_from = char_to then return gb
  else if ¬ char_from < char_to then none
  else
    let lo ← gb.char_to_byte char_from
    let hi ← gb.char_to_byte char_to
    let gb ← gb.move_gap_to lo
    let d ← csub hi lo
    let gb := { gb with gap_end := gb.gap_end + d }
    let seg ← subrange? gb.data lo hi
    let n_chars := countBoundaries seg
    let tot ← csub gb.line_stats.n_chars n_chars
    let gb := { gb with line_stats := { gb.line_stats with n_chars := tot } }
    let ls ← idx? gb.line_stats.lines gb.line_stats.current_line
    let lc ← csub ls.n_chars n_chars
    let lb ← csub ls.n_bytes d
    let lines ← setIdx? gb.line_stats.lines gb.line_stats.current_line
      { ls with n_chars := lc, n_bytes := lb }
    let gb := { gb with line_stats := { gb.line_stats with lines := lines } }
    let st ← seg.foldlM
      (fun st b => if b = 10 then st.remove_newline else pure st)
      gb.line_stats
    return { gb with line_stats := st }

/-- `GapBuffer::from(&str)`. -/
def fromStr (s : List Nat) : Option GapBuffer :=
  let gap_start := s.length
  let next_gap := clamp_gap_size gap_start MIN_GAP
  let cap := gap_start + next_gap
  let gb : GapBuffer :=
    { data := s ++ List.replicate next_gap 0
      cap
      gap_start
      gap_end := cap
      next_gap
      line_stats := lineStatsFromStr s }
  gb.move_gap_to 0

/-- Modelled from the spec: `slice(char_from, char_to)` is declared in the gap
buffer's public contract but its implementation is not in this snapshot; it
returns the visible characters in `[char_from, char_to)`. -/
def slice (gb : GapBuffer) (lo hi : Nat) : Option (List Nat) :=
  let runs := utf8Runs gb.toString
  if lo ≤ hi ∧ hi ≤ runs.length then some (((runs.drop lo).take (hi - lo)).flatten)
  else none

/-- Modelled from the spec: `char(idx)` (public contract, implementation not in
this snapshot) returns the character at index `idx` as its UTF-8 byte run. -/
def charAt (gb : GapBuffer) (i : Nat) : Option (List Nat) :=
  idx? (utf8Runs gb.toString) i

end GapBuffer

/-- Sum of the per-line `n_chars` fields. -/
def sumLineChars (gb : GapBuffer) : Nat :=
  (gb.line_stats.lines.map LineStat.n_chars).sum

/-- Sum of the per-line `n_bytes` fields. -/
def sumLineBytes (gb : GapBuffer) : Nat :=
  (gb.line_stats.lines.map LineStat.n_bytes).sum

/-! ## Dots and cursors

The `Cur { idx }` based `dot` module used by `src/buffer/mod.rs` is not part of
this snapshot (only an older row/column version is), so the small pieces the
buffer needs are modelled from the spec (§3): a cursor is a character index, a
range keeps `start ≤ end`, and a range of equal endpoints collapses to a `Cur`.
-/

structure Cur where
  idx : Nat
deriving Repr, DecidableEq, Inhabited

/-- `Range` (the `end` cursor is named `stop` as `end` is reserved in Lean). -/
structure Range where
  start : Cur
  stop : Cur
  start_active : Bool
deriving Repr, DecidableEq, Inhabited

/-- `Range::from_cursors`, following `src/buffer/dot/range.rs`. -/
def Range.from_cursors (c1 c2 : Cur) (c1_was_active : Bool) : Range :=
  if c1.idx ≤ c2.idx then { start := c1, stop := c2, start_active := c1_was_active }
  else if c1_was_active then { start := c2, stop := c1, start_active := false }
  else { start := c2, stop := c1, start_active := true }

inductive Dot where
  | Cur (c : Cur)
  | Range (r : Range)
deriving Repr, DecidableEq, Inhabited

/-- Modelled from the spec: a range of equal endpoints is null and collapses to
a `Cur`. -/
def Dot.collapse_null_range : Dot → Dot
  | .Range r => if r.start.idx = r.stop.idx then .Cur r.start else .Range r
  | d => d

/-- Modelled from the spec: clamp a dot's cursor indices into `[0, n_chars]`. -/
def Dot.clamp_idx : Dot → Nat → Dot
  | .Cur c, n => .Cur ⟨min c.idx n⟩
  | .Range r, n => .Range { r with start := ⟨min r.start.idx n⟩, stop := ⟨min r.stop.idx n⟩ }

/-! ## Edit log — `src/buffer/edit.rs` -/

inductive Kind where
  | Insert
  | Delete
deriving Repr, DecidableEq, Inhabited

/-- `Txt` (the `String` payload carries UTF-8 bytes). -/
inductive Txt where
  | Char (c : List Nat)
  | Str (s : List Nat)
deriving Repr, DecidableEq, Inhabited

/-- `Txt::append`. -/
def Txt.append : Txt → Txt → Txt
  | .Char c, .Char d => .Str (c ++ d)
  | .Char c, .Str s => .Str (c ++ s)
  | .Str s, .Char d => .Str (s ++ d)
  | .Str s, .Str t => .Str (s ++ t)

/-- `Txt::prepend`. -/
def Txt.prepend : Txt → Txt → Txt
  | .Char c, .Char d => .Str (d ++ c)
  | .Char c, .Str s => .Str (s ++ c)
  | .Str s, .Char d => .Str (d ++ s)
  | .Str s, .Str t => .Str (t ++ s)

structure Edit where
  kind : Kind
  cur : Cur
  txt : Txt
deriving Repr, DecidableEq, Inhabited

/-- `Edit::into_undo`: swap `Insert` and `Delete`. -/
def Edit.into_undo (e : Edit) : Edit :=
  { e with kind := match e.kind with | .Insert => .Delete | .Delete => .Insert }

/-- `Edit::try_extend_insert`: `none` means the new edit was absorbed. -/
def Edit.try_extend_insert (self : Edit) (e : Edit) : Edit × Option Edit :=
  if e.cur = self.cur then ({ self with txt := self.txt.prepend e.txt }, none)
  else
    match self.txt with
    | .Char _ =>
      if e.cur.idx = self.cur.idx + 1 then ({ self with txt := self.txt.append e.txt }, none)
      else (self, some e)
    | .Str s =>
      if e.cur.idx = self.cur.idx + s.length then
        ({ self with txt := self.txt.append e.txt }, none)
      else (self, some e)

/-- `Edit::try_extend_delete`. -/
def Edit.try_extend_delete (self : Edit) (e : Edit) : Edit × Option Edit :=
  if e.cur = self.cur then ({ self with txt := self.txt.append e.txt }, none)
  else
    match e.txt with
    | .Char _ =>
      if e.cur.idx + 1 = self.cur.idx then
        ({ self with txt := self.txt.prepend e.txt, cur := e.cur }, none)
      else (self, some e)
    | .Str s =>
      if e.cur.idx + s.length = self.cur.idx then
        ({ self with txt := self.txt.prepend e.txt, cur := e.cur }, none)
      else (self, some e)

/-- `Edit::try_combine`. -/
def Edit.try_combine (self : Edit) (e : Edit) : Edit × Option Edit :=
  match self.kind, e.kind with
  | .Insert, .Insert => self.try_extend_insert e
  | .Delete, .Delete => self.try_extend_delete e
  | _, _ => (self, some e)

abbrev Transaction := List Edit

structure EditLog where
  edits : List Transaction
  undone_edits : List Transaction
  paused : Bool
deriving Repr, DecidableEq, Inhabited

namespace EditLog

def is_empty (el : EditLog) : Bool := el.edits.isEmpty

/-- `EditLog::push`. -/
def push (el : EditLog) (e : Edit) : EditLog :=
  let el := { el with undone_edits := [] }
  match el.edits.getLast? with
  | none => { el with edits := [[e]] }
  | some t =>
    if t.isEmpty then { el with edits := el.edits.dropLast ++ [[e]] }
    else
      match t.getLast? with
      | none => { el with edits := el.edits.dropLast ++ [[e]] }
      | some last =>
        let (last, rest) := last.try_combine e
        let t := t.dropLast ++ [last] ++ (match rest with | some e => [e] | none => [])
        { el with edits := el.edits.dropLast ++ [t] }

def insert_char (el : EditLog) (cur : Cur) (c : List Nat) : EditLog :=
  if !el.paused then el.push { kind := .Insert, cur, txt := .Char c } else el

def insert_string (el : EditLog) (cur : Cur) (s : List Nat) : EditLog :=
  if !el.paused then el.push { kind := .Insert, cur, txt := .Str s } else el

def delete_char (el : EditLog) (cur : Cur) (c : List Nat) : EditLog :=
  if !el.paused then el.push { kind := .Delete, cur, txt := .Char c } else el

def delete_string (el : EditLog) (cur : Cur) (s : List Nat) : EditLog :=
  if !el.paused then el.push { kind := .Delete, cur, txt := .Str s } else el

/-- `EditLog::new_transaction`. -/
def new_transaction (el : EditLog) : EditLog :=
  match el.edits.getLast? with
  | some t => if t.isEmpty then el else { el with edits := el.edits ++ [[]] }
  | none => { el with edits := el.edits ++ [[]] }

/-- The `while t.is_empty()` pop loop of `EditLog::undo` (fuelled by the stack
depth, which bounds the number of pops). -/
def undoAux : Nat → EditLog → EditLog × Option Transaction
  | 0, el => (el, none)
  | fuel + 1, el =>
    match el.edits.getLast? with
    | none => (el, none)
    | some t =>
      let el := { el with edits := el.edits.dropLast }
      if t.isEmpty then undoAux fuel el
      else
        ({ el with undone_edits := el.undone_edits ++ [t] },
         some (t.reverse.map Edit.into_undo))

/-- `EditLog::undo`: pop the most recent non-empty transaction and return its
reverse-ordered, kind-swapped edits. -/
def undo (el : EditLog) : EditLog × Option Transaction :=
  undoAux (el.edits.length + 1) el

/-- The empty-transaction skip loop of `EditLog::redo` (which, as in the
source, pops replacements from `edits`, not `undone_edits`). -/
def redoAux : Nat → EditLog → Transaction → EditLog × Option Transaction
  | 0, el, _ => (el, none)
  | fuel + 1, el, t =>
    if t.isEmpty then
      match el.edits.getLast? with
      | none => (el, none)
      | some t2 => redoAux fuel { el with edits := el.edits.dropLast } t2
    else ({ el with edits := el.edits ++ [t] }, some t)

/-- `EditLog::redo`. -/
def redo (el : EditLog) : EditLog × Option Transaction :=
  match el.undone_edits.getLast? with
  | none => (el, none)
  | some t => redoAux (el.edits.length + 1) { el with undone_edits := el.undone_edits.dropLast } t

end EditLog

/-! ## Buffer — `src/buffer/mod.rs` -/

inductive BufferKind where
  | File (path : List Nat)
  | Directory (path : List Nat)
  | Virtual (name : List Nat)
  | Output (name : List Nat)
  | Unnamed
  | MiniBuffer
deriving Repr, DecidableEq, Inhabited

def BufferKind.is_file : BufferKind → Bool
  | .File _ => true
  | _ => false

inductive ActionOutcome where
  | SetClipboard (s : List Nat)
  | SetStatusMessage (s : List Nat)
deriving Repr, DecidableEq, Inhabited

/-- `Buffer` (the `last_save` timestamp and the optional tokenizer are omitted:
no claim depends on wall-clock state or highlighting). -/
structure Buffer where
  id : Nat
  kind : BufferKind
  dot : Dot
  xdot : Dot
  txt : GapBuffer
  rx : Nat
  row_off : Nat
  col_off : Nat
  dirty : Bool
  edit_log : EditLog
deriving Repr, DecidableEq, Inhabited

namespace Buffer

/-- `Buffer::new_unnamed`. -/
def new_unnamed (id : Nat) (content : List Nat) : Option Buffer := do
  let txt ← GapBuffer.fromStr content
  return { id
           kind := .Unnamed
           dot := .Cur ⟨0⟩
           xdot := .Cur ⟨0⟩
           txt
           rx := 0
           row_off := 0
           col_off := 0
           dirty := false
           edit_log := { edits := [], undone_edits := [], paused := false } }

/-- `Buffer::contents`: the visible bytes with a trailing newline pushed. -/
def contents (b : Buffer) : List Nat := b.txt.bytes ++ [10]

/-- `Buffer::str_contents`: `to_string()` with a trailing newline pushed. -/
def str_contents (b : Buffer) : List Nat := b.txt.toString ++ [10]

/-- `Buffer::mark_dirty`: only file-backed buffers are marked dirty. -/
def mark_dirty (b : Buffer) : Buffer := { b with dirty := b.kind.is_file }

/-- `Buffer::delete_range`. -/
def delete_range (b : Buffer) (r : Range) : Option (Buffer × Cur × Option (List Nat)) := do
  if r.start.idx ≠ r.stop.idx then
    let lo := r.start.idx
    let hi := min (r.stop.idx + 1) b.txt.len_chars
    let s ← b.txt.slice lo hi
    let txt ← b.txt.remove_range lo hi
    let el := b.edit_log.delete_string r.start s
    let b := Buffer.mark_dirty { b with txt, edit_log := el }
    return (b, r.start, some s)
  else
    return (b, r.start, none)

/-- `Buffer::delete_cur`. -/
def delete_cur (b : Buffer) (cur : Cur) : Option (Buffer × Cur) := do
  if cur.idx < b.txt.len_chars then
    let ch ← b.txt.charAt cur.idx
    let txt ← b.txt.remove_char cur.idx
    let el := b.edit_log.delete_char cur ch
    return (Buffer.mark_dirty { b with txt, edit_log := el }, cur)
  else
    return (b, cur)

/-- `Buffer::delete_dot`. -/
def delete_dot (b : Buffer) (dot : Dot) : Option (Buffer × Cur × Option (List Nat)) := do
  match dot with
  | .Cur c =>
    let (b, cur) ← b.delete_cur c
    return (b, cur, none)
  | .Range r => b.delete_range r

/-- `Buffer::insert_char` (the character as its UTF-8 run). -/
def insert_char (b : Buffer) (dot : Dot) (ch : List Nat) :
    Option (Buffer × Cur × Option (List Nat)) := do
  let (b, cur, deleted) ← match dot with
    | .Cur c => pure (b, c, none)
    | .Range r => b.delete_range r
  let idx := cur.idx
  let txt ← b.txt.insert_char ch idx
  let el := b.edit_log.insert_char cur ch
  let b := Buffer.mark_dirty { b with txt, edit_log := el }
  return (b, ⟨idx + 1⟩, deleted)

/-- `Buffer::insert_string`: an empty string is not recorded as an edit and
leaves the gap buffer untouched, but `mark_dirty` still runs. -/
def insert_string (b : Buffer) (dot : Dot) (s : List Nat) :
    Option (Buffer × Cur × Option (List Nat)) := do
  let (b, cur, deleted) ← match dot with
    | .Cur c => pure (b, c, none)
    | .Range r => b.delete_range r
  if s.isEmpty then
    return (Buffer.mark_dirty b, cur, deleted)
  else
    let idx := cur.idx
    let n := countBoundaries s
    let txt ← b.txt.insert_str s idx
    let el := b.edit_log.insert_string cur s
    let b := Buffer.mark_dirty { b with txt, edit_log := el }
    return (b, ⟨idx + n⟩, deleted)

/-- `Buffer::apply_edit`. -/
def apply_edit (b : Buffer) (e : Edit) : Option Buffer := do
  let (b, new_cur) ←
    match e.kind, e.txt with
    | .Insert, .Char c => do
      let (b, cur, _) ← b.insert_char (.Cur e.cur) c
      pure (b, cur)
    | .Insert, .Str s => do
      let (b, cur, _) ← b.insert_string (.Cur e.cur) s
      pure (b, cur)
    | .Delete, .Char _ => do
      let (b, cur, _) ← b.delete_dot (.Cur e.cur)
      pure (b, cur)
    | .Delete, .Str s => do
      let start_idx := e.cur.idx
      let end_idx := (start_idx + countBoundaries s) - 1
      let (b, cur, _) ←
        b.delete_dot ((Dot.Range (Range.from_cursors e.cur ⟨end_idx⟩ true)).collapse_null_range)
      pure (b, cur)
  return { b with dot := .Cur new_cur }

/-- `Buffer::undo`: replay the popped transaction's inverse with recording
paused, then recompute `dirty`. -/
def undo (b : Buffer) : Option (Buffer × Option ActionOutcome) := do
  match b.edit_log.undo with
  | (el, some edits) =>
    let b := { b with edit_log := { el with paused := true } }
    let b ← edits.foldlM Buffer.apply_edit b
    let b := { b with edit_log := { b.edit_log with paused := false } }
    let b := { b with dirty := !b.edit_log.is_empty }
    return (b, none)
  | (el, none) =>
    return ({ b with edit_log := el }, some (.SetStatusMessage (ascii "Nothing to undo")))

/-- `Buffer::redo`: replay the popped transaction with recording paused. -/
def redo (b : Buffer) : Option (Buffer × Option ActionOutcome) := do
  match b.edit_log.redo with
  | (el, some edits) =>
    let b := { b with edit_log := { el with paused := true } }
    let b ← edits.foldlM Buffer.apply_edit b
    let b := { b with edit_log := { b.edit_log with paused := false } }
    return (b, none)
  | (el, none) =>
    return ({ b with edit_log := el }, some (.SetStatusMessage (ascii "Nothing to redo")))

end Buffer

/-! ## Sam edit language executor — `src/exec/mod.rs`

The stream is the in-memory `Rope`, modelled as a `List Char`; the
`IterableStream` operations it supplies (`iter_between`, `insert`, `remove`,
`map_initial_dot`, `contents`) are not in this snapshot and are modelled from
the spec (§4.5).  The `Regex::match_iter` entry point of the newer VM is also
absent (only `matches_iter` is), so matching is modelled from the spec for
literal patterns, which is all the theorems below use.
-/

/-- `Match` — `src/regex/matches.rs`: 20 sub-match slots, slot pair 0 is the
full match. -/
structure Match where
  sub_matches : List Nat
deriving Repr, DecidableEq, Inhabited

namespace Match

/-- `Match::synthetic`. -/
def synthetic (lo hi : Nat) : Match :=
  { sub_matches := lo :: hi :: List.replicate 18 0 }

/-- `Match::loc`. -/
def loc (m : Match) : Nat × Nat :=
  (m.sub_matches.getD 0 0, m.sub_matches.getD 1 0)

/-- `Match::sub_loc`. -/
def sub_loc (m : Match) (n : Nat) : Option (Nat × Nat) :=
  if n > 9 then none
  else
    let s := m.sub_matches.getD (2 * n) 0
    let e := m.sub_matches.getD (2 * n + 1) 0
    if n > 0 ∧ s = 0 ∧ e = 0 then none else some (s, e)

/-- `Match::rope_submatch_text`: the inclusive slice `r[a..=b]`. -/
def rope_submatch_text (m : Match) (n : Nat) (r : List Char) : Option (List Char) := do
  let (a, b) ← m.sub_loc n
  return (r.drop a).take (b + 1 - a)

end Match

/-- Modelled from the spec: `iter_between(from, to)` yields `(idx, char)` pairs
for the characters of the stream in the inclusive range `[from, to]`. -/
def iter_between (s : List Char) (lo hi : Nat) : List (Nat × Char) :=
  ((s.enum).drop lo).take (hi + 1 - lo)

/-- Modelled from the spec: `insert(idx, s)` on the in-memory stream. -/
def streamInsert (s : List Char) (idx : Nat) (t : List Char) : List Char :=
  s.take idx ++ t ++ s.drop idx

/-- Modelled from the spec: `remove(from, to)` on the in-memory stream removes
the inclusive character range (matching the executor's use on match locations,
e.g. `Sub` of `oo → X` on `"foo foo foo"` gives `"fX foo foo"`). -/
def streamRemove (s : List Char) (lo hi : Nat) : List Char :=
  s.take lo ++ s.drop (hi + 1)

/-- Modelled from the spec: `map_initial_dot(from, opt_to)` gives the inclusive
char range of the initial dot, running to the final character by default. -/
def map_initial_dot (s : List Char) (lo : Nat) (hi : Option Nat) : Nat × Nat :=
  (lo, hi.getD (s.length - 1))

/-- Modelled from the spec: `Regex::match_iter` (absent from this snapshot's
`vm.rs`) returns the leftmost match in the iterated characters; for a literal
pattern that is the first occurrence, with `loc()` being its inclusive span.
The VM in this snapshot does not record capture slots (`add_thread` skips
`Save`), so only the full-match pair is populated. -/
def litMatchIter (pat : List Char) : List (Nat × Char) → Option Match
  | [] => none
  | (i, c) :: rest =>
    if (((i, c) :: rest).map Prod.snd).take pat.length = pat ∧ pat.length ≤ rest.length + 1
    then some (Match.synthetic i (i + pat.length - 1))
    else litMatchIter pat rest

/-- Substring containment test used by `template_match` (`str::contains`). -/
def listContains (l pat : List Char) : Bool :=
  (List.range (l.length + 1)).any fun i => (l.drop i).take pat.length = pat

/-- `String::replace`: replace all non-overlapping occurrences left-to-right
(auxiliary, fuelled by the input length). -/
def listReplaceAux (pat rep : List Char) : Nat → List Char → List Char
  | 0, l => l
  | fuel + 1, l =>
    match l with
    | [] => []
    | c :: rest =>
      if pat ≠ [] ∧ l.take pat.length = pat then
        rep ++ listReplaceAux pat rep fuel (l.drop pat.length)
      else c :: listReplaceAux pat rep fuel rest

def listReplace (l pat rep : List Char) : List Char :=
  listReplaceAux pat rep l.length l

def FNAME_VAR : List Char := "$FILENAME".toList

/-- `template_match` — `src/exec/mod.rs`: expand `$FILENAME`, the `\n`/`\t`
escapes and the `$0..$9` group variables in a replacement template. -/
def template_match (s : List Char) (m : Match) (r : List Char) (fname : List Char) :
    Option (List Char) := do
  let output := if listContains s FNAME_VAR then listReplace s FNAME_VAR fname else s
  let output := listReplace (listReplace output ['\\', 'n'] ['\n']) ['\\', 't'] ['\t']
  (List.range 10).foldlM
    (fun out n =>
      if listContains s ['$', Char.ofNat (48 + n)] then
        match m.rope_submatch_text n r with
        | some sm => some (listReplace out ['$', Char.ofNat (48 + n)] sm)
        | none => none
      else some out)
    output

/-- The executor expressions exercised by the theorems below (the remaining
source variants — groups, guards, `y`, `p`, `i`, `a`, `d`, single `s` — are
not needed). A regex is carried as its literal pattern. -/
inductive SamExpr where
  | LoopMatches (re : List Char)
  | Change (tpl : List Char)
  | SubAll (re : List Char) (tpl : List Char)
deriving Repr, DecidableEq, Inhabited

inductive InitialDot where
  | Full
  | Current
  | Start (n : Nat)
  | DotRange (lo hi : Nat)
deriving Repr, DecidableEq, Inhabited

structure SamProgram where
  initial_dot : InitialDot
  exprs : List SamExpr
deriving Repr, DecidableEq, Inhabited

mutual

/-- `Program::step`, fuelled (the source recurses through the instruction
list); results thread the mutable stream as `(stream, (from, to))`. -/
def step (exprs : List SamExpr) (fname : List Char) :
    Nat → List Char → Match → Nat → Option (List Char × Nat × Nat)
  | 0, _, _, _ => none
  | fuel + 1, stream, m, pc =>
    let (a, b) := m.loc
    match idx? exprs pc with
    | none => none
    | some (.Change tpl) => do
      let s ← template_match tpl m stream fname
      let stream := streamInsert (streamRemove stream a b) a s
      return (stream, (a, a + s.length))
    | some (.LoopMatches re) => stepLoopMatches exprs fname fuel re stream a b pc
    | some (.SubAll re tpl) => stepSubAll exprs fname fuel re tpl stream a b a

/-- The `Expr::LoopMatches` loop: match, run the body at `pc + 1` anchored on
the match, resume one past the body's end and track the length delta. -/
def stepLoopMatches (exprs : List SamExpr) (fname : List Char) :
    Nat → List Char → List Char → Nat → Nat → Nat → Option (List Char × Nat × Nat)
  | 0, _, _, _, _, _ => none
  | fuel + 1, re, stream, a, b, pc =>
    match litMatchIter re (iter_between stream a b) with
    | some m => do
      let cur_len := stream.length
      let (stream, _, f2) ← step exprs fname fuel stream m (pc + 1)
      let new_len := stream.length
      let a := f2 + 1
      let b ←
        if new_len > cur_len then pure (b + (new_len - cur_len))
        else if new_len < cur_len then csub b (cur_len - new_len)
        else pure b
      if a > b then return (stream, (a, b))
      else stepLoopMatches exprs fname fuel re stream a b pc
    | none => some (stream, (a, b))

/-- The `Expr::SubAll` loop: replace each match in place, resuming at
`match_start + len(replacement)`; `a` stays the loop's fixed dot start. -/
def stepSubAll (exprs : List SamExpr) (fname : List Char) :
    Nat → List Char → List Char → List Char → Nat → Nat → Nat →
    Option (List Char × Nat × Nat)
  | 0, _, _, _, _, _, _ => none
  | fuel + 1, re, tpl, stream, a, b, inner =>
    match litMatchIter re (iter_between stream inner b) with
    | some m => do
      let cur_len := stream.length
      let (mf, mt) := m.loc
      let s ← template_match tpl m stream fname
      let stream := streamInsert (streamRemove stream mf mt) mf s
      let new_len := stream.length
      let inner := mf + s.length
      let b ←
        if new_len > cur_len then pure (b + (new_len - cur_len))
        else if new_len < cur_len then csub b (cur_len - new_len)
        else pure b
      if inner > b then return (stream, (a, b))
      else stepSubAll exprs fname fuel re tpl stream a b inner
    | none => some (stream, (a, b))

end

/-- `Program::execute`. -/
def executeProg (p : SamProgram) (stream : List Char) (fname : List Char) :
    Option (List Char × Nat × Nat) := do
  let (a, b) :=
    match p.initial_dot with
    | .Full => map_initial_dot stream 0 none
    | .Start f => map_initial_dot stream f none
    | .DotRange f t => map_initial_dot stream f (some t)
    | .Current => (0, 0)
  let (stream, a, b) ←
    if p.exprs.isEmpty then pure (stream, a, b)
    else step p.exprs fname 1000 stream (Match.synthetic a b) 0
  let ix_max ← csub stream.length 1
  return (stream, (min a ix_max, min b ix_max))

/-- `, s/re/t/g` as a whole program. -/
def runSubAll (input re tpl : List Char) : Option (List Char × Nat × Nat) :=
  executeProg { initial_dot := .Full, exprs := [.SubAll re tpl] } input []

/-- `, x/re/ c/t/` as a whole program. -/
def runXChange (input re tpl : List Char) : Option (List Char × Nat × Nat) :=
  executeProg { initial_dot := .Full, exprs := [.LoopMatches re, .Change tpl] } input []

/-! ## Address writes — `src/editor/mod.rs`

`Editor::handle_message` for `SetBufferAddr` / `SetBufferXAddr` is in the
snapshot; the `Addr` parser and `Buffer::map_addr` it calls are not, so both
are modelled from the spec's address grammar (§4.2). -/

inductive SimpleAddr where
  | CharOffset (n : Nat)
  | LineNum (n : Nat)
  | Fwd (re : List Char)
  | Bwd (re : List Char)
  | Bufend
  | CurrentDot
  | RelFwd
  | RelBwd
deriving Repr, DecidableEq, Inhabited

inductive AddrOp where
  | add
  | sub
  | comma
deriving Repr, DecidableEq, Inhabited

structure Addr where
  first : SimpleAddr
  rest : List (AddrOp × SimpleAddr)
deriving Repr, DecidableEq, Inhabited

namespace Addr

def parseNum : List Char → Nat → Nat × List Char
  | c :: rest, acc =>
    if c.isDigit then parseNum rest (acc * 10 + (c.toNat - 48)) else (acc, c :: rest)
  | [], acc => (acc, [])

/-- Modelled from the spec: parse one `simple` of the address grammar. -/
def parseSimple : List Char → Option (SimpleAddr × List Char)
  | [] => none
  | c :: rest =>
    if c = '#' then
      match rest with
      | d :: _ =>
        if d.isDigit then
          let (n, rest) := parseNum rest 0
          some (.CharOffset n, rest)
        else none
      | [] => none
    else if c.isDigit then
      let (n, rest) := parseNum (c :: rest) 0
      some (.LineNum n, rest)
    else if c = '$' then some (.Bufend, rest)
    else if c = '.' then some (.CurrentDot, rest)
    else if c = '+' then some (.RelFwd, rest)
    else if c = '-' then some (.RelBwd, rest)
    else if c = '/' then
      let re := rest.takeWhile (fun x => x ≠ '/')
      let rest := rest.dropWhile (fun x => x ≠ '/')
      match rest with
      | '/' :: rest => some (.Fwd re, rest)
      | _ => none
    else if c = '?' then
      let re := rest.takeWhile (fun x => x ≠ '?')
      let rest := rest.dropWhile (fun x => x ≠ '?')
      match rest with
      | '?' :: rest => some (.Bwd re, rest)
      | _ => none
    else none

def parseOps : Nat → List Char → List (AddrOp × SimpleAddr) →
    Option (List (AddrOp × SimpleAddr))
  | 0, _, _ => none
  | _ + 1, [], acc => some acc
  | fuel + 1, c :: rest, acc => do
    let op ←
      if c = '+' then some AddrOp.add
      else if c = '-' then some AddrOp.sub
      else if c = ',' then some AddrOp.comma
      else none
    match parseSimple rest with
    | some (s, rest) => parseOps fuel rest (acc ++ [(op, s)])
    | none =>
      -- a trailing `+`/`-` also stands alone as a relative marker
      if c = '+' then parseOps fuel rest (acc ++ [(.add, .LineNum 1)])
      else if c = '-' then parseOps fuel rest (acc ++ [(.sub, .LineNum 1)])
      else none

/-- Modelled from the spec: `Addr::parse` for the grammar
`addr := simple (op simple)*`; anything else is an invalid address. -/
def parse (s : List Char) : Option Addr := do
  let (first, rest) ← parseSimple s
  let ops ← parseOps (rest.length + 1) rest []
  return { first, rest := ops }

end Addr

/-- First character index of (0-based) line `y`, from the line metadata. -/
def lineStartChar (gb : GapBuffer) (y : Nat) : Nat :=
  ((gb.line_stats.lines.take y).map LineStat.n_chars).sum

/-- Index of the line containing character `i`, from the line metadata. -/
def charToLineIdx (gb : GapBuffer) (i : Nat) : Nat :=
  let f := fun (acc : Nat × Nat) (ls : LineStat) =>
    if i < acc.2 + ls.n_chars then acc else (acc.1 + 1, acc.2 + ls.n_chars)
  (gb.line_stats.lines.dropLast.foldl f (0, 0)).1

/-- The active cursor index of a dot. -/
def Dot.activeIdx : Dot → Nat
  | .Cur c => c.idx
  | .Range r => r.stop.idx

/-- Find the first occurrence of `pat` at or after `lo` in the buffer text. -/
def findLit (chars : List Char) (pat : List Char) (lo : Nat) : Option (Nat × Nat) :=
  match litMatchIter pat ((chars.enum).drop lo) with
  | some m => some m.loc
  | none => none

/-- Modelled from the spec: evaluate one `simple` from the running dot. -/
def evalSimple (b : Buffer) (cur : Dot) : SimpleAddr → Dot
  | .CharOffset n => .Cur ⟨min n b.txt.len_chars⟩
  | .LineNum n =>
    -- line numbers address the whole (1-based) line as an inclusive range
    let y := n - 1
    let lo := lineStartChar b.txt y
    let len := (idx? b.txt.line_stats.lines y).map LineStat.n_chars |>.getD 0
    (Dot.Range (Range.from_cursors ⟨lo⟩ ⟨lo + len - 1⟩ true)).collapse_null_range
  | .Bufend => .Cur ⟨b.txt.len_chars⟩
  | .CurrentDot => b.dot
  | .RelFwd => cur
  | .RelBwd => cur
  | .Fwd re =>
    match findLit (b.txt.toString.map Char.ofNat) re cur.activeIdx with
    | some (lo, hi) => Dot.Range (Range.from_cursors ⟨lo⟩ ⟨hi⟩ true)
    | none => cur
  | .Bwd _ => cur

/-- Modelled from the spec: left-to-right evaluation; `,` builds a range from
the accumulated left address to the evaluated right one, `+`/`-` advance. -/
def evalOp (b : Buffer) (cur : Dot) : AddrOp × SimpleAddr → Dot
  | (.comma, s) =>
    let right := evalSimple b cur s
    let lo := match cur with | .Cur c => c.idx | .Range r => r.start.idx
    (Dot.Range (Range.from_cursors ⟨lo⟩ ⟨right.activeIdx⟩ true)).collapse_null_range
  | (.add, .LineNum k) =>
    let y := charToLineIdx b.txt cur.activeIdx + k
    .Cur ⟨min (lineStartChar b.txt y) b.txt.len_chars⟩
  | (.add, .CharOffset k) => .Cur ⟨min (cur.activeIdx + k) b.txt.len_chars⟩
  | (.add, s) => evalSimple b cur s
  | (.sub, .LineNum k) =>
    let y := charToLineIdx b.txt cur.activeIdx - k
    .Cur ⟨lineStartChar b.txt y⟩
  | (.sub, .CharOffset k) => .Cur ⟨cur.activeIdx - k⟩
  | (.sub, s) => evalSimple b cur s

/-- Modelled from the spec: `Buffer::map_addr` evaluates an address expression
to a `Dot` (total, as in the source's signature). -/
def map_addr (b : Buffer) (a : Addr) : Dot :=
  a.rest.foldl (evalOp b) (evalSimple b b.dot a.first)

/-- The sliver of `Editor` state the address writes touch. -/
structure EditorSt where
  buffers : List (Nat × Buffer)
deriving Repr, DecidableEq, Inhabited

def lookupBuf (ed : EditorSt) (id : Nat) : Option Buffer := ed.buffers.lookup id

def updateBuf (ed : EditorSt) (id : Nat) (b : Buffer) : EditorSt :=
  { ed with buffers := ed.buffers.map fun p => if p.1 = id then (id, b) else p }

/-- `str::trim_end`. -/
def trimEnd (s : List Char) : List Char :=
  (s.reverse.dropWhile Char.isWhitespace).reverse

/-- `Editor::handle_message` for `SetBufferAddr` (via `handle_buffer_mutation`):
parse the trailing-trimmed input; on success replace `dot`, on failure do
nothing — and reply `Ok("handled")` in either case. -/
def setBufferAddr (ed : EditorSt) (id : Nat) (s : List Char) :
    EditorSt × Except String String :=
  match lookupBuf ed id with
  | some b =>
    let b := match Addr.parse (trimEnd s) with
      | some expr => { b with dot := map_addr b expr }
      | none => b
    (updateBuf ed id b, .ok "handled")
  | none => (ed, .error "unknown buffer")

/-- `Editor::handle_message` for `SetBufferXAddr`: as `SetBufferAddr` but for
the secondary dot. -/
def setBufferXAddr (ed : EditorSt) (id : Nat) (s : List Char) :
    EditorSt × Except String String :=
  match lookupBuf ed id with
  | some b =>
    let b := match Addr.parse (trimEnd s) with
      | some expr => { b with xdot := map_addr b expr }
      | none => b
    (updateBuf ed id b, .ok "handled")
  | none => (ed, .error "unknown buffer")

/-! ## 9P walk — `src/ninep/server.rs`

`Session::handle_walk` is in the snapshot; the `Serve9p::walk` implementor for
the `ad` tree is not and is modelled from the spec (§4.7). -/

inductive FileType where
  | Directory
  | Regular
deriving Repr, DecidableEq, Inhabited

/-- A path is its list of name segments from the root. -/
abbrev NinePath := List String

structure FileMeta where
  path : NinePath
  ty : FileType
  qid : Nat
deriving Repr, DecidableEq, Inhabited

/-- `Qid` (the 9P `path` field is the 64-bit id). -/
structure Qid where
  ty : FileType
  path : Nat
deriving Repr, DecidableEq, Inhabited

def FileMeta.as_qid (fm : FileMeta) : Qid := { ty := fm.ty, path := fm.qid }

/-- Insert-or-replace into an association list keyed on the first component. -/
def assocInsert {α : Type} (l : List (Nat × α)) (k : Nat) (v : α) : List (Nat × α) :=
  if (l.lookup k).isSome then l.map (fun p => if p.1 = k then (k, v) else p)
  else l ++ [(k, v)]

/-- The session/server state `handle_walk` touches: the fid table and the qid
cache. -/
structure WalkState where
  fids : List (Nat × Nat)
  qids : List (Nat × FileMeta)
deriving Repr, DecidableEq, Inhabited

def E_DUPLICATE_FID : String := "duplicate fid"
def E_UNKNOWN_FID : String := "unknown fid"
def E_WALK_NON_DIR : String := "walk in non-directory"

/-- The `file_meta!` macro: fid → qid → cached `FileMeta`. -/
def fileMetaOf (st : WalkState) (fid : Nat) : Option FileMeta := do
  let qid ← st.fids.lookup fid
  st.qids.lookup qid

/-- `Session::handle_walk`, parameterised by the `Serve9p::walk` implementor. -/
def handle_walk (walkFn : NinePath → List String → Except String (List FileMeta))
    (st : WalkState) (fid new_fid : Nat) (wnames : List String) :
    WalkState × Except String (List Qid) :=
  if new_fid ≠ fid ∧ (st.fids.lookup new_fid).isSome then (st, .error E_DUPLICATE_FID)
  else
    match fileMetaOf st fid with
    | none => (st, .error E_UNKNOWN_FID)
    | some fm =>
      if wnames.isEmpty then
        ({ st with fids := assocInsert st.fids new_fid fm.qid }, .ok [])
      else if fm.ty = .Regular then (st, .error E_WALK_NON_DIR)
      else
        match walkFn fm.path wnames with
        | .error e => (st, .error e)
        | .ok metas =>
          let wqids := metas.map FileMeta.as_qid
          let st := { st with
            qids := metas.foldl (fun m fm => assocInsert m fm.qid fm) st.qids }
          let st :=
            if wqids.length = wnames.length then
              match wqids.getLast? with
              | some q => { st with fids := assocInsert st.fids new_fid q.path }
              | none => st
            else st
          (st, .ok wqids)

/-- Modelled from the spec: the `ad` file tree of §4.7 with buffers `1` and `2`
open — children of each directory path, with stable qids.  The buffer control
files follow `fsys/buffer.rs` (`BUFFER_FILES`). -/
def adChildren : NinePath → Option (List (String × FileType))
  | [] => some [("ctl", .Regular), ("current", .Regular), ("buffers", .Directory)]
  | ["buffers"] => some [("1", .Directory), ("2", .Directory)]
  | ["buffers", b] =>
    if b = "1" ∨ b = "2" then
      some [("filename", .Regular), ("dot", .Regular), ("addr", .Regular),
            ("xdot", .Regular), ("xaddr", .Regular), ("body", .Regular),
            ("event", .Regular)]
    else none
  | _ => none

/-- Modelled from the spec: stable qid assignment for the tree above — the root
is 0, `ctl`/`current`/`buffers` follow, and each buffer directory owns a block
of sequential qids for its files. -/
def adQid : NinePath → Option Nat
  | [] => some 0
  | ["ctl"] => some 1
  | ["buffers"] => some 2
  | ["current"] => some 3
  | ["buffers", "1"] => some 4
  | ["buffers", "2"] => some 12
  | ["buffers", b, f] => do
    let base ← if b = "1" then some 4 else if b = "2" then some 12 else none
    let off ← match f with
      | "filename" => some 1
      | "dot" => some 2
      | "addr" => some 3
      | "xdot" => some 4
      | "xaddr" => some 5
      | "body" => some 6
      | "event" => some 7
      | _ => none
    return base + off
  | _ => none

def adMeta (p : NinePath) : Option FileMeta := do
  let qid ← adQid p
  let ty :=
    if (adChildren p).isSome then FileType.Directory else FileType.Regular
  return { path := p, ty, qid }

/-- Modelled from the spec (§4.7 walk semantics): walk the elements in order —
each must be a directory entry or `..` — stopping at the first failure and
returning the metadata of the elements walked so far. -/
def adWalkAux : Nat → NinePath → List String → List FileMeta
  | 0, _, _ => []
  | _ + 1, _, [] => []
  | fuel + 1, path, e :: rest =>
    let next :=
      if e = ".." then some path.dropLast
      else
        match adChildren path with
        | some cs => if (cs.lookup e).isSome then some (path ++ [e]) else none
        | none => none
    match next with
    | some p =>
      match adMeta p with
      | some fm => fm :: adWalkAux fuel p rest
      | none => []
    | none => []

/-- Modelled from the spec: the `Serve9p::walk` implementor for the `ad` tree. -/
def adWalk (path : NinePath) (elems : List String) : Except String (List FileMeta) :=
  .ok (adWalkAux (elems.length + 1) path elems)

/-- An attached session with the root bound to fid 0 and buffers 1 and 2 open. -/
def adSession : WalkState :=
  { fids := [(0, 0)]
    qids := [(0, { path := [], ty := .Directory, qid := 0 })] }

/-! ## Buffer-file qids — `src/fsys/buffer.rs`

The constants `CURRENT_BUFFER_QID` and `QID_OFFSET` live in the missing
`fsys/mod.rs`; `QID_OFFSET` is pinned to 8 by the declared length
`QID_OFFSET as usize - 1` of the 7-entry `BUFFER_FILES` array, while
`CURRENT_BUFFER_QID` is kept as a parameter `cur`. -/

def QID_OFFSET : Nat := 8

def BUFFER_FILES : List (Nat × String) :=
  [(1, "filename"), (2, "dot"), (3, "addr"), (4, "xdot"), (5, "xaddr"),
   (6, "body"), (7, "event")]

/-- `parent_and_fname`: recover a buffer file's directory qid and name from its
own qid.  `none` models the `assert!`, the `qid - cur - 2` underflow and the
array indexing panic. -/
def parent_and_fname (cur qid : Nat) : Option (Nat × String) :=
  if qid ≤ cur then none
  else if qid < cur + 2 then none
  else
    match idx? BUFFER_FILES ((qid - cur - 2) % QID_OFFSET) with
    | some e => some (cur + 1 + ((qid - cur - 1) / QID_OFFSET) * QID_OFFSET, e.2)
    | none => none

/-- The parent formula exactly as the spec words it (`base` being the first
buffer-directory qid): `parent(qid) = base + ((qid − base − 1) / 7) * 7`.
Stated only to compare against `parent_and_fname`. -/
def specParentFormula (base qid : Nat) : Nat :=
  base + ((qid - base - 1) / 7) * 7

/-! ## Config — `src/config.rs`

`Color::try_from` lives in the missing `term` module and is modelled from the
spec (`#RRGGBB`). -/

structure Color where
  r : Nat
  g : Nat
  b : Nat
deriving Repr, DecidableEq, Inhabited

def hexVal (c : Char) : Option Nat :=
  if c.isDigit then some (c.toNat - 48)
  else if 'a' ≤ c ∧ c ≤ 'f' then some (c.toNat - 87)
  else if 'A' ≤ c ∧ c ≤ 'F' then some (c.toNat - 55)
  else none

/-- Modelled from the spec: `Color::try_from("#RRGGBB")`. -/
def Color.tryFrom (s : String) : Option Color :=
  match s.toList with
  | ['#', r1, r2, g1, g2, b1, b2] => do
    let r ← hexVal r1
    let r' ← hexVal r2
    let g ← hexVal g1
    let g' ← hexVal g2
    let b ← hexVal b1
    let b' ← hexVal b2
    return { r := r * 16 + r', g := g * 16 + g', b := b * 16 + b' }
  | _ => none

structure ColorScheme where
  bg : Color
  fg : Color
  dot_bg : Color
  bar_bg : Color
  signcol_fg : Color
  minibuffer_hl : Color
deriving Repr, DecidableEq, Inhabited

/-- `ColorScheme::default`. -/
def ColorScheme.default : ColorScheme :=
  { bg := (Color.tryFrom "#1B1720").getD ⟨0, 0, 0⟩
    fg := (Color.tryFrom "#EBDBB2").getD ⟨0, 0, 0⟩
    dot_bg := (Color.tryFrom "#336677").getD ⟨0, 0, 0⟩
    bar_bg := (Color.tryFrom "#4E415C").getD ⟨0, 0, 0⟩
    signcol_fg := (Color.tryFrom "#544863").getD ⟨0, 0, 0⟩
    minibuffer_hl := (Color.tryFrom "#3E3549").getD ⟨0, 0, 0⟩ }

structure Config where
  tabstop : Nat
  expand_tab : Bool
  match_indent : Bool
  status_timeout : Nat
  minibuffer_lines : Nat
  colorscheme : ColorScheme
deriving Repr, DecidableEq, Inhabited

/-- `Config::default`. -/
def Config.default : Config :=
  { tabstop := 4
    expand_tab := true
    match_indent := true
    status_timeout := 5
    minibuffer_lines := 10
    colorscheme := ColorScheme.default }

/-- `str::parse::<usize>`: an optional `+` sign then one or more digits. -/
def parse_usize (val : String) : Option Nat :=
  let ds := match val.toList with
    | '+' :: rest => rest
    | l => l
  if ds.isEmpty ∨ ¬ ds.all Char.isDigit then none
  else some (ds.foldl (fun acc c => acc * 10 + (c.toNat - 48)) 0)

/-- `parse_bool`. -/
def parse_bool (val : String) : Option Bool :=
  if val = "true" then some true
  else if val = "false" then some false
  else none

/-- The `match prop` dispatch inside `Config::try_set_prop`. -/
def setProp (cfg : Config) (prop val : String) : Except String Config :=
  if prop = "tabstop" then
    match parse_usize val with
    | some n => .ok { cfg with tabstop := n }
    | none => .error ("expected number for '" ++ prop ++ "' but found '" ++ val ++ "'")
  else if prop = "minibuffer-lines" then
    match parse_usize val with
    | some n => .ok { cfg with minibuffer_lines := n }
    | none => .error ("expected number for '" ++ prop ++ "' but found '" ++ val ++ "'")
  else if prop = "status-timeout" then
    match parse_usize val with
    | some n => .ok { cfg with status_timeout := n }
    | none => .error ("expected number for '" ++ prop ++ "' but found '" ++ val ++ "'")
  else if prop = "expand-tab" then
    match parse_bool val with
    | some b => .ok { cfg with expand_tab := b }
    | none => .error ("expected true/false for '" ++ prop ++ "' but found '" ++ val ++ "'")
  else if prop = "match-indent" then
    match parse_bool val with
    | some b => .ok { cfg with match_indent := b }
    | none => .error ("expected true/false for '" ++ prop ++ "' but found '" ++ val ++ "'")
  else if prop = "bg-color" then
    match Color.tryFrom val with
    | some c => .ok { cfg with colorscheme := { cfg.colorscheme with bg := c } }
    | none => .error ("expected #RRGGBB string for '" ++ prop ++ "' but found '" ++ val ++ "'")
  else if prop = "fg-color" then
    match Color.tryFrom val with
    | some c => .ok { cfg with colorscheme := { cfg.colorscheme with fg := c } }
    | none => .error ("expected #RRGGBB string for '" ++ prop ++ "' but found '" ++ val ++ "'")
  else if prop = "dot-bg-color" then
    match Color.tryFrom val with
    | some c => .ok { cfg with colorscheme := { cfg.colorscheme with dot_bg := c } }
    | none => .error ("expected #RRGGBB string for '" ++ prop ++ "' but found '" ++ val ++ "'")
  else if prop = "bar-bg-color" then
    match Color.tryFrom val with
    | some c => .ok { cfg with colorscheme := { cfg.colorscheme with bar_bg := c } }
    | none => .error ("expected #RRGGBB string for '" ++ prop ++ "' but found '" ++ val ++ "'")
  else if prop = "signcol-fg-color" then
    match Color.tryFrom val with
    | some c => .ok { cfg with colorscheme := { cfg.colorscheme with signcol_fg := c } }
    | none => .error ("expected #RRGGBB string for '" ++ prop ++ "' but found '" ++ val ++ "'")
  else if prop = "minibuffer-hl-color" then
    match Color.tryFrom val with
    | some c => .ok { cfg with colorscheme := { cfg.colorscheme with minibuffer_hl := c } }
    | none => .error ("expected #RRGGBB string for '" ++ prop ++ "' but found '" ++ val ++ "'")
  else .error ("'" ++ prop ++ "' is not a known config property")

/-- `str::split_once('=')`. -/
def splitOnceEq (s : List Char) : Option (List Char × List Char) :=
  if s.contains '=' then
    some (s.takeWhile (fun c => c ≠ '='), (s.dropWhile (fun c => c ≠ '=')).drop 1)
  else none

/-- `Config::try_set_prop`. -/
def try_set_prop (cfg : Config) (input : String) : Except String Config :=
  match splitOnceEq input.toList with
  | none => .error ("'" ++ input ++ "' is not a 'set prop=val' command")
  | some (p, v) => setProp cfg (String.mk p) (String.mk v)

/-- `str::strip_prefix("set ")` as used by `Config::parse`. -/
def stripSetDirective (line : List Char) : Option (List Char) :=
  if line.take 4 = "set ".toList then some (line.drop 4) else none

/-- `Config::parse`, over the file's lines. -/
def Config.parseLines (lines : List (List Char)) : Except String Config :=
  lines.foldlM
    (fun cfg line =>
      let line := trimEnd line
      if line.head? = some '#' ∨ line.isEmpty then .ok cfg
      else
        match stripSetDirective line with
        | none => .error ("'" ++ String.mk line ++ "' is not a 'set prop=val' command")
        | some rest => try_set_prop cfg (String.mk rest))
    Config.default

/-- Properties recognised by `Config::try_set_prop`. -/
def recognisedProps : List String :=
  ["tabstop", "minibuffer-lines", "status-timeout", "expand-tab", "match-indent",
   "bg-color", "fg-color", "dot-bg-color", "bar-bg-color", "signcol-fg-color",
   "minibuffer-hl-color"]

def isOkE {ε α : Type} : Except ε α → Bool
  | .ok _ => true
  | .error _ => false

deriving instance DecidableEq for Except

/-! ## Scenario states used by the theorems -/

/-- `"hello, world!"` after `insert_str(6, "TEST\n")` (scenario S2, first half). -/
def c1_insert : Option GapBuffer := do
  let g ← GapBuffer.fromStr (ascii "hello, world!")
  g.insert_str (ascii "TEST\n") 6

/-- Scenario S2 in full: `insert_str(6, "TEST\n")` then `remove_range(6, 11)`. -/
def c1_scenario : Option GapBuffer := do
  let g ← c1_insert
  g.remove_range 6 11

/-- `GapBuffer::from("a")` followed by `insert_str(0, "é")` (`é` = `C3 A9`). -/
def c2_buffer : Option GapBuffer := do
  let g ← GapBuffer.fromStr (ascii "a")
  g.insert_str [195, 169] 0

/-- An unnamed buffer `"foo foo foo\n"` after inserting `"bar"` at 0 (as the
source's `undo_string_insert_works` test builds it). -/
def c3_buffer : Option Buffer := do
  let b ← Buffer.new_unnamed 0 (ascii "foo foo foo\n")
  let (b, _, _) ← b.insert_string (.Cur ⟨0⟩) (ascii "bar")
  pure b

/-- The bytes of `c3_buffer` after `undo()` then `redo()`. -/
def c3_undo_redo : Option (List Nat) := do
  let b ← c3_buffer
  let (b, _) ← b.undo
  let (b, _) ← b.redo
  pure b.txt.bytes

/-- An unnamed buffer `"cd"` after inserting `"ab\n"` at 0 — a one-transaction
log whose replay spans a line boundary. -/
def c3_multiline : Option Buffer := do
  let b ← Buffer.new_unnamed 0 (ascii "cd")
  let (b, _, _) ← b.insert_string (.Cur ⟨0⟩) (ascii "ab\n")
  pure b

/-- The buffer backing the address-write scenarios (id 1, text `"ab\ncd"`). -/
def c5_buffer : Buffer :=
  (Buffer.new_unnamed 1 (ascii "ab\ncd")).getD default

/-- An editor holding only `c5_buffer`. -/
def c5_editor : EditorSt := { buffers := [(1, c5_buffer)] }

/-! ## Claim theorems -/

/-- C1: the spec claims `insert_str(x, s)` followed by
`remove_range(x, x + len(s))` returns the buffer to its prior state, and in
particular that from `"hello, world!"`, `insert_str(6, "TEST\n")` then
`remove_range(6, 11)` yields `"hello, world!"` again with `len_lines() = 1`.
On the code, the insert succeeds (first conjunct), but `char_to_byte(11)`
falls off the end of the first line record and resolves to the end of the
whole buffer, making `remove_range` delete through the end of the text and
then underflow the line-record counters — the operation aborts instead of
restoring the buffer (second conjunct).  This is the failing
`insert_remove_str_is_idempotent` test acknowledged by the source's FIXME. -/
theorem c1_insert_remove_does_not_restore :
    (c1_insert.map fun g => (g.toString, g.len_lines))
      = some (ascii "hello,TEST\n world!", 2)
    ∧ c1_scenario = none := by
  exact ⟨by decide, by decide⟩

/-- C2: the spec claims that after every public mutation
`sum(line.n_chars) = n_chars` and `sum(line.n_bytes) = active_len`.  The code's
`insert_str` adds the *byte* length of the inserted string to the buffer total
`n_chars` but the *character* count to the line record, so inserting the
two-byte character `é` into `"a"` leaves the per-line char sum at 2 while the
total reads 3 (the byte sums still agree at 3). -/
theorem c2_insert_str_breaks_line_char_sum :
    c2_buffer.map
        (fun g => (sumLineChars g, g.line_stats.n_chars, sumLineBytes g, g.len))
      = some (2, 3, 3, 3)
    ∧ (2 : Nat) ≠ 3 := by
  exact ⟨by decide, by decide⟩

/-- C3: the spec claims `undo()` then `redo()` restores the buffer bytes.  On
the code, for a buffer built by inserting `"bar"` into `"foo foo foo\n"`
(first conjunct), the undo replay succeeds (second conjunct) but leaves the
line record's `offset` pointing into the gap, so the redo replay's
`char_to_byte` underflows and aborts (third conjunct) — the pre-undo bytes
`"barfoo foo foo\n"` are never restored.  A transaction whose replay spans a
line boundary fails during `undo()` already (fourth conjunct), through the
same `remove_range` defect as C1. -/
theorem c3_undo_redo_fails_to_restore :
    (c3_buffer.map fun b => b.txt.bytes) = some (ascii "barfoo foo foo\n")
    ∧ (do
        let b ← c3_buffer
        let (b, _) ← b.undo
        pure b.txt.bytes) = some (ascii "foo foo foo\n")
    ∧ c3_undo_redo = none
    ∧ (do
        let b ← c3_multiline
        b.undo) = none := by
  exact ⟨by decide, by decide, by decide, by decide⟩

/-- C4 counterexample: the claim that `, s/re/t/g` and `, x/re/ c/t/` produce
identical final stream contents and the same final dot on every input is false
at input `"abab"` with `re = ab`, `t = X`: the substitute-all loop resumes at
`match_start + len(t)` and rewrites both occurrences giving `"XX"` with dot
`(0, 1)`, while the `x`-loop resumes one character later, misses the second
adjacent match and leaves `"Xab"` with dot `(2, 2)`. -/
theorem c4_sub_g_x_c_differ_on_adjacent_matches :
    runSubAll "abab".toList "ab".toList "X".toList = some ("XX".toList, 0, 1)
    ∧ runXChange "abab".toList "ab".toList "X".toList = some ("Xab".toList, 2, 2)
    ∧ "XX".toList ≠ "Xab".toList
    ∧ ((0, 1) : Nat × Nat) ≠ (2, 2) := by
  exact ⟨by decide, by decide, by decide, by decide⟩

/-- C4 amended: on the spec's own S4-style input — `"foo foo foo"` with
`re = oo`, `t = X`, whose matches are separated — the two programs do produce
identical final stream contents `"fX fX fX"`, but even there the final dots
differ: `(0, 7)` for `s///g` against `(7, 7)` for `x//c//`. -/
theorem c4_sub_g_x_c_contents_agree_on_separated_matches :
    (runSubAll "foo foo foo".toList "oo".toList "X".toList).map (fun r => r.1)
      = (runXChange "foo foo foo".toList "oo".toList "X".toList).map (fun r => r.1)
    ∧ runSubAll "foo foo foo".toList "oo".toList "X".toList
        = some ("fX fX fX".toList, 0, 7)
    ∧ runXChange "foo foo foo".toList "oo".toList "X".toList
        = some ("fX fX fX".toList, 7, 7) := by
  exact ⟨by decide, by decide, by decide⟩

/-- C5 counterexample: the claim that writing an *invalid* address expression
returns an error reply is false: for the write `"%%%"` to `addr` the
expression does not parse, the buffer is left untouched — and the reply is
`Ok("handled")`, not an error. -/
theorem c5_invalid_addr_write_replies_ok :
    Addr.parse (trimEnd "%%%".toList) = none
    ∧ setBufferAddr c5_editor 1 "%%%".toList = (c5_editor, .ok "handled")
    ∧ isOkE (setBufferAddr c5_editor 1 "%%%".toList).2 = true := by
  exact ⟨by decide, by decide, by decide⟩

/-- C5 amended: a valid expression written to `addr` (`xaddr`) replaces the
dot (xdot) with its evaluation result, with trailing whitespace tolerated
(first two conjuncts); an expression that fails to parse leaves the editor
state unchanged while the write still replies `Ok("handled")` (third
conjunct); an error reply is produced only for an unknown buffer id (fourth
conjunct). -/
theorem c5_addr_write_behaviour :
    ((setBufferAddr c5_editor 1 "#3  ".toList).1.buffers.lookup 1 |>.map Buffer.dot)
        = some (Dot.Cur ⟨3⟩)
      ∧ (setBufferAddr c5_editor 1 "#3  ".toList).2 = .ok "handled"
    ∧ ((setBufferXAddr c5_editor 1 "$".toList).1.buffers.lookup 1 |>.map Buffer.xdot)
        = some (Dot.Cur ⟨5⟩)
      ∧ (setBufferXAddr c5_editor 1 "$".toList).2 = .ok "handled"
    ∧ (∀ s : List Char, Addr.parse (trimEnd s) = none →
        setBufferAddr c5_editor 1 s = (c5_editor, .ok "handled"))
    ∧ setBufferAddr c5_editor 7 "2".toList = (c5_editor, .error "unknown buffer") := by
  refine ⟨by decide, by decide, by decide, by decide, ?_, by decide⟩
  intro s h
  have hb : lookupBuf c5_editor 1 = some c5_buffer := by decide
  simp only [setBufferAddr, hb, h]
  decide

/-- C5 witness: the amended theorem's unchanged-state clause applied to the
concrete invalid expression `" +x"`. -/
theorem c5_addr_write_behaviour_witness :
    setBufferAddr c5_editor 1 " +x".toList = (c5_editor, .ok "handled") := by
  exact c5_addr_write_behaviour.2.2.2.2.1 " +x".toList (by decide)

/-- C6: 9P walk semantics on the modelled `ad` tree with buffers 1 and 2 open
and the root bound to fid 0.  (i) An empty `wnames` binds `new_fid` to the
same file as `fid`.  (ii) Scenario S6: `["buffers", "2", "dot"]` returns three
qids and binds `new_fid` to the final file (qid 14).  (iii) A non-existent
third element returns exactly the two qids walked so far and does not bind
`new_fid`.  (iv) In general, for any non-empty `wnames`, `new_fid` gets bound
exactly when the number of returned qids equals the number of elements. -/
theorem c6_walk_semantics :
    handle_walk adWalk adSession 0 1 []
      = ({ adSession with fids := [(0, 0), (1, 0)] }, .ok [])
    ∧ (handle_walk adWalk adSession 0 1 ["buffers", "2", "dot"]).2
        = .ok [⟨.Directory, 2⟩, ⟨.Directory, 12⟩, ⟨.Regular, 14⟩]
      ∧ ((handle_walk adWalk adSession 0 1 ["buffers", "2", "dot"]).1.fids.lookup 1)
        = some 14
    ∧ (handle_walk adWalk adSession 0 1 ["buffers", "2", "nope"]).2
        = .ok [⟨.Directory, 2⟩, ⟨.Directory, 12⟩]
      ∧ ((handle_walk adWalk adSession 0 1 ["buffers", "2", "nope"]).1.fids.lookup 1)
        = none
    ∧ (∀ (e : String) (rest : List String),
        (((handle_walk adWalk adSession 0 1 (e :: rest)).1.fids.lookup 1).isSome = true)
          ↔ (adWalkAux ((e :: rest).length + 1) [] (e :: rest)).length
              = (e :: rest).length) := by
  refine ⟨by decide, by decide, by decide, by decide, by decide, ?_⟩
  intro e rest
  have hg : ¬((1 : Nat) ≠ 0 ∧ ((adSession.fids.lookup 1).isSome = true)) := by decide
  have hm : fileMetaOf adSession 0 = some ⟨[], .Directory, 0⟩ := by decide
  simp only [handle_walk, hm, if_neg hg]
  simp only [List.isEmpty_cons, Bool.false_eq_true, if_false, adWalk]
  rw [if_neg (by decide)]
  simp only [List.length_cons, List.length_map]
  generalize hM : adWalkAux (rest.length + 1 + 1) [] (e :: rest) = M
  by_cases hl : M.length = rest.length + 1
  · simp only [hl, if_pos rfl]
    have hne : M.map FileMeta.as_qid ≠ [] := by
      intro h
      have := congrArg List.length h
      simp [hl] at this
    cases hq : (M.map FileMeta.as_qid).getLast? with
    | none => exact absurd (List.getLast?_eq_none_iff.mp hq) hne
    | some q =>
      simp [assocInsert, List.lookup]
  · simp only [if_neg hl]
    simp [adSession, List.lookup, hl]

/-- C7 counterexample: the claim's parent formula
`parent(qid) = base + ((qid − base − 1) / 7) * 7` (with `base` the first
buffer-directory qid) disagrees with the code: taking
`CURRENT_BUFFER_QID = 3` (so `base = 4`), the `dot` file of the *second*
buffer block has qid 14 and the code resolves its parent to 12, while the
spec's formula yields 11. -/
theorem c7_spec_parent_formula_mismatch :
    parent_and_fname 3 14 = some (12, "dot")
    ∧ specParentFormula 4 14 = 11
    ∧ (11 : Nat) ≠ 12 := by
  exact ⟨by decide, by decide, by decide⟩

/-- C7 amended: each buffer directory owns a block of `QID_OFFSET = 8`
sequential qids — the directory itself plus 7 file qids — and for every
`cur`, block index `k` and file offset `j + 1` (`j : Fin 7`),
`parent_and_fname` recovers the owning directory
`cur + 1 + 8 * k` and the filename at offset `j` of `BUFFER_FILES`. -/
theorem c7_qid_block_structure (cur k : Nat) (j : Fin 7) :
    parent_and_fname cur (cur + 1 + QID_OFFSET * k + (j.val + 1))
      = (idx? BUFFER_FILES j.val).map
          (fun e => (cur + 1 + QID_OFFSET * k, e.2))
    ∧ (idx? BUFFER_FILES j.val).isSome = true := by
  have hjlt : j.val < 7 := j.isLt
  constructor
  · unfold parent_and_fname
    simp only [QID_OFFSET]
    rw [if_neg (by omega), if_neg (by omega)]
    have h1 : (cur + 1 + 8 * k + (j.val + 1) - cur - 2) % 8 = j.val := by omega
    have h2 : (cur + 1 + 8 * k + (j.val + 1) - cur - 1) / 8 = k := by omega
    rw [h1, h2]
    cases hx : idx? BUFFER_FILES j.val with
    | none => simp
    | some e =>
      simp only [Option.map_some]
      congr 1
      rw [Prod.mk.injEq]
      exact ⟨by omega, rfl⟩
  · have hlen : j.val < BUFFER_FILES.length := by simp [BUFFER_FILES]
    simp only [idx?, List.get?_eq_getElem?, List.getElem?_eq_getElem hlen,
      Option.isSome_some]

/-- C8 counterexample: the claim lists `find-command` among the recognised
config properties; the code rejects it — both through `try_set_prop` and a
full `set` directive line. -/
theorem c8_find_command_rejected :
    try_set_prop Config.default "find-command=fd"
      = .error "'find-command' is not a known config property"
    ∧ Config.parseLines ["set find-command=fd".toList]
      = .error "'find-command' is not a known config property" := by
  exact ⟨by decide, by decide⟩

/-- C8 amended: the defaults are tabstop 4, expand-tab true, match-indent
true, minibuffer-lines 10, status-timeout 5; each of the eleven recognised
properties — the five scalars and the six `#RRGGBB` colour entries — is
accepted by a `set <prop>=<val>` directive (shown on sample values, including
a full parse), and *every* property outside that set is rejected. -/
theorem c8_recognised_config_props :
    (Config.default.tabstop = 4 ∧ Config.default.expand_tab = true
      ∧ Config.default.match_indent = true ∧ Config.default.minibuffer_lines = 10
      ∧ Config.default.status_timeout = 5)
    ∧ (["tabstop=7", "minibuffer-lines=7", "status-timeout=7", "expand-tab=false",
        "match-indent=false", "bg-color=#0a0B0c", "fg-color=#0a0B0c",
        "dot-bg-color=#0a0B0c", "bar-bg-color=#0a0B0c", "signcol-fg-color=#0a0B0c",
        "minibuffer-hl-color=#0a0B0c"].all
          fun s => isOkE (try_set_prop Config.default s)) = true
    ∧ Config.parseLines
        ["# comment".toList, "".toList, "set tabstop=7".toList,
         "set expand-tab=false".toList]
        = .ok { Config.default with tabstop := 7, expand_tab := false }
    ∧ (∀ (p v : String), p ∉ recognisedProps →
        setProp Config.default p v
          = .error ("'" ++ p ++ "' is not a known config property")) := by
  refine ⟨by decide, by decide, by decide, ?_⟩
  intro p v hp
  simp only [recognisedProps, List.mem_cons, List.not_mem_nil, or_false, not_or] at hp
  obtain ⟨h1, h2, h3, h4, h5, h6, h7, h8, h9, h10, h11⟩ := hp
  simp [setProp, h1, h2, h3, h4, h5, h6, h7, h8, h9, h10, h11]

/-- C8 witness: the amended theorem's rejection clause applied to the concrete
unrecognised property `find-command`. -/
theorem c8_recognised_config_props_witness :
    setProp Config.default "find-command" "fd"
      = .error "'find-command' is not a known config property" := by
  exact c8_recognised_config_props.2.2.2 "find-command" "fd" (by decide)

/-- C9: for every buffer, `contents()` is the visible gap-buffer bytes with
exactly one `\n` byte appended and `str_contents()` is `to_string()` with
exactly one `\n` appended — so both always end in a newline — and on a buffer
whose visible text is empty both are exactly `"\n"`. -/
theorem c9_contents_end_with_newline :
    (∀ b : Buffer,
        b.contents.getLast? = some 10 ∧ b.contents.dropLast = b.txt.bytes
        ∧ b.str_contents.getLast? = some 10 ∧ b.str_contents.dropLast = b.txt.toString)
    ∧ (Buffer.new_unnamed 0 []).map Buffer.contents = some [10]
    ∧ (Buffer.new_unnamed 0 []).map Buffer.str_contents = some [10] := by
  refine ⟨fun b => ⟨?_, ?_, ?_, ?_⟩, by decide, by decide⟩
  · simp [Buffer.contents]
  · simp [Buffer.contents]
  · simp [Buffer.str_contents]
  · simp [Buffer.str_contents]

/-- C10: for every buffer whose dot argument is a cursor, inserting the empty
string succeeds and returns a buffer identical to the original except for the
dirty flag, which is set exactly when the buffer is file-backed; the returned
cursor is the given one unchanged and nothing is reported deleted — in
particular the gap buffer and the edit log are untouched and no edit is
recorded. -/
theorem c10_insert_empty_string_frame (b : Buffer) (c : Cur) :
    b.insert_string (.Cur c) [] = some ({ b with dirty := b.kind.is_file }, c, none) := by
  rfl

end Ad
